import Mathlib

/-!
Verification of the task-management REST service (FastAPI + asyncpg).

The data model, the CRUD/query engine (`app/db/crud.py`), the HTTP handlers
(`app/api/routes_tasks.py`), the request schemas (`app/schemas/task.py`) and
the persisted schema (`app/main.py` lifespan DDL) are shallowly embedded as
executable Lean definitions.  The store is a list of rows plus the SERIAL
counter; SQL statements are modelled by their semantics on that list, with the
UNIQUE and CHECK constraints of the DDL raising the corresponding asyncpg
error classes.
-/

namespace App

/-- A task row as selected by the engine and returned by the API
(`app/schemas/task.py`, class `Task`). -/
structure Task where
  id : Int
  name : String
  description : Option String
  status_id : Int
  flag_id : Int
deriving Repr, DecidableEq

/-- Creation payload (`app/schemas/task.py`, class `TaskCreate`/`TaskBase`):
`name` required, `description` optional (default `None`), `status_id` and
`flag_id` default `1`. -/
structure TaskCreate where
  name : String
  description : Option String := none
  status_id : Int := 1
  flag_id : Int := 1
deriving Repr, DecidableEq

/-- Update payload (`app/schemas/task.py`, class `TaskUpdate`): every field
`Optional[...] = None`; pydantic stores `None` both for an absent field and
for an explicit `null`. -/
structure TaskUpdate where
  name : Option String := none
  description : Option String := none
  status_id : Option Int := none
  flag_id : Option Int := none
deriving Repr, DecidableEq

/-- The persisted table: rows plus the state of the `SERIAL` id generator. -/
structure Store where
  rows : List Task
  nextId : Int
deriving Repr, DecidableEq

/-- asyncpg constraint-violation classes raised by the statements of this
schema.  `ForeignKeyViolationError` is distinct from `CheckViolationError`;
the DDL in `app/main.py` declares `CHECK` constraints on `status_id` and
`flag_id` and no foreign keys. -/
inductive DbError where
  | uniqueViolation
  | checkViolation
  | fkViolation
deriving Repr, DecidableEq

/-- Python-level failures as seen by the route handlers: `ValueError` raised
by the CRUD layer, an uncaught asyncpg error, or an uncaught `TypeError`. -/
inductive PyError where
  | valueError (msg : String)
  | dbErr (e : DbError)
  | typeError
deriving Repr, DecidableEq

/-- `CHECK (status_id IN (1, 2, 3))` from the DDL in `app/main.py`. -/
def statusOk (s : Int) : Bool :=
  s == 1 || s == 2 || s == 3

/-- `CHECK (flag_id IN (1, 2))` from the DDL in `app/main.py`. -/
def flagOk (f : Int) : Bool :=
  f == 1 || f == 2

/-- Semantics of `INSERT INTO tasks (name, description, status_id, flag_id)
VALUES ($1,$2,$3,$4) RETURNING ...` under the DDL of `app/main.py`: the row
must satisfy both CHECK constraints and the UNIQUE constraint on `name`;
`id` comes from the SERIAL generator. -/
def insertTask (st : Store) (t : TaskCreate) : Except DbError (Store × Task) :=
  if ¬ statusOk t.status_id then .error .checkViolation
  else if ¬ flagOk t.flag_id then .error .checkViolation
  else if st.rows.any (fun r => r.name == t.name) then .error .uniqueViolation
  else
    let row : Task := ⟨st.nextId, t.name, t.description, t.status_id, t.flag_id⟩
    .ok (⟨st.rows ++ [row], st.nextId + 1⟩, row)

namespace TaskCRUD

/-- `TaskCRUD.create` (`app/db/crud.py`): single insert;
`UniqueViolationError` and `ForeignKeyViolationError` are converted to
`ValueError`, any other error propagates. -/
def create (st : Store) (t : TaskCreate) : Store × Except PyError Task :=
  match insertTask st t with
  | .ok (st', row) => (st', .ok row)
  | .error .uniqueViolation => (st, .error (.valueError "Task with this name already exists"))
  | .error .fkViolation => (st, .error (.valueError "Invalid status_id or flag_id"))
  | .error e => (st, .error (.dbErr e))

/-- `asyncpg.Connection.executemany` applied to the batch INSERT: the command
runs once per argument tuple (stopping at the first error) and the call
returns `None` — it yields no result rows, despite the `RETURNING` clause of
the command. -/
def executemanyInsert (st : Store) (ts : List TaskCreate) : Except DbError Store :=
  match ts with
  | [] => .ok st
  | t :: rest =>
    match insertTask st t with
    | .error e => .error e
    | .ok (st', _) => executemanyInsert st' rest

/-- `TaskCRUD.create_batch` (`app/db/crud.py`): inside `conn.transaction()`,
`rows = await conn.executemany(...)` binds `rows` to `None`; the list
comprehension `[Task(**dict(row)) for row in rows]` then raises `TypeError`
inside the transaction block, so even a fully successful batch rolls back and
the error propagates.  A batch failure also rolls back.  The empty batch
returns `[]` before touching the store. -/
def create_batch (st : Store) (ts : List TaskCreate) : Store × Except PyError (List Task) :=
  if ts.isEmpty then (st, .ok [])
  else
    match executemanyInsert st ts with
    | .error e => (st, .error (.dbErr e))
    | .ok _ => (st, .error .typeError)

end TaskCRUD

/-- `a.id ≤ b.id`: the `ORDER BY id` key. -/
def idLe (a b : Task) : Prop := a.id ≤ b.id

instance : DecidableRel idLe := fun a b => inferInstanceAs (Decidable (a.id ≤ b.id))

instance : IsTotal Task idLe := ⟨fun a b => Int.le_total a.id b.id⟩

instance : IsTrans Task idLe := ⟨fun _ _ _ h1 h2 => Int.le_trans h1 h2⟩

/-- `ORDER BY id` on a result set. -/
def sortById (l : List Task) : List Task := l.insertionSort idLe

namespace TaskCRUD

/-- `TaskCRUD.get_all` (`app/db/crud.py`): `SELECT ... ORDER BY id LIMIT $1
OFFSET $2`. -/
def get_all (st : Store) (limit : Nat) (offset : Nat) : List Task :=
  ((sortById st.rows).drop offset).take limit

/-- `TaskCRUD.get_by_id` (`app/db/crud.py`): `SELECT ... WHERE id = $1`,
`fetchrow` returns the first matching row or `None`. -/
def get_by_id (st : Store) (tid : Int) : Option Task :=
  st.rows.find? (fun r => r.id == tid)

/-- `TaskCRUD.get_by_status` (`app/db/crud.py`): `SELECT ... WHERE status_id
= $1 ORDER BY id LIMIT $2`. -/
def get_by_status (st : Store) (sid : Int) (limit : Nat) : List Task :=
  (sortById (st.rows.filter (fun r => r.status_id == sid))).take limit

end TaskCRUD

/-- `anySuffix f t` holds when `f` accepts some suffix of `t` (including `t`
itself and `[]`). -/
def anySuffix (f : List Char → Bool) : List Char → Bool
  | [] => f []
  | c :: t => f (c :: t) || anySuffix f t

/-- PostgreSQL `LIKE` pattern matching on case-folded character lists:
`%` matches any sequence (the rest of the pattern may consume any suffix),
`_` matches any single character, a backslash escapes the next pattern
character (a pattern ending in a bare backslash matches nothing), any other
character matches itself. -/
def likeMatches : List Char → List Char → Bool
  | [] => List.isEmpty
  | p0 :: p1 =>
    if p0 = '%' then anySuffix (likeMatches p1)
    else if p0 = '_' then fun t =>
      match t with
      | [] => false
      | _ :: t1 => likeMatches p1 t1
    else if p0 = '\\' then
      match p1 with
      | [] => fun _ => false
      | e :: p2 => fun t =>
        match t with
        | [] => false
        | d :: t1 => (d == e) && likeMatches p2 t1
    else fun t =>
      match t with
      | [] => false
      | d :: t1 => (d == p0) && likeMatches p1 t1

/-- The characters of a string, case-folded. -/
def lowerStr (s : String) : List Char := s.data.map Char.toLower

/-- PostgreSQL `text ILIKE pattern`: `LIKE` with both operands case-folded. -/
def ilike (text pattern : String) : Bool :=
  likeMatches (lowerStr pattern) (lowerStr text)

/-- `description ILIKE $1` on a nullable column: a NULL description never
matches. -/
def descIlike (pattern : String) (r : Task) : Bool :=
  match r.description with
  | none => false
  | some d => ilike d pattern

/-- The `CASE WHEN name ILIKE $1 THEN 1 WHEN description ILIKE $1 THEN 2
ELSE 3 END` sort key of `TaskCRUD.search_tasks`. -/
def searchRank (pattern : String) (r : Task) : Nat :=
  if ilike r.name pattern then 1 else if descIlike pattern r then 2 else 3

/-- The `ORDER BY CASE ..., id` order of `TaskCRUD.search_tasks`. -/
def sqlLe (pattern : String) (a b : Task) : Prop :=
  searchRank pattern a < searchRank pattern b ∨
    (searchRank pattern a = searchRank pattern b ∧ a.id ≤ b.id)

instance (pattern : String) : DecidableRel (sqlLe pattern) := fun _ _ =>
  inferInstanceAs (Decidable (_ ∨ _))

instance (pattern : String) : IsTotal Task (sqlLe pattern) :=
  ⟨fun a b => by unfold sqlLe; omega⟩

instance (pattern : String) : IsTrans Task (sqlLe pattern) :=
  ⟨fun a b c h1 h2 => by unfold sqlLe at h1 h2 ⊢; omega⟩

/-- The strict version of `sqlLe`: ties on the full key are impossible, so
two sorted permutations are equal. -/
def sqlLt (pattern : String) (a b : Task) : Prop :=
  searchRank pattern a < searchRank pattern b ∨
    (searchRank pattern a = searchRank pattern b ∧ a.id < b.id)

instance (pattern : String) : IsAntisymm Task (sqlLt pattern) :=
  ⟨fun a b h1 h2 => by exfalso; unfold sqlLt at h1 h2; omega⟩

namespace TaskCRUD

/-- `TaskCRUD.search_tasks` (`app/db/crud.py`): the pattern is
`f"%\x7bsearch_term\x7d%"`; `WHERE name ILIKE $1 OR description ILIKE $1
ORDER BY CASE ... END, id LIMIT $2`. -/
def search_tasks (st : Store) (term : String) (limit : Nat) : List Task :=
  let pattern := "%" ++ term ++ "%"
  ((st.rows.filter (fun r => ilike r.name pattern || descIlike pattern r)).insertionSort
      (sqlLe pattern)).take limit

end TaskCRUD

/-- The update a successful dynamic `UPDATE ... SET` applies to a row: every
field present (not `None`) in the `TaskUpdate` is overwritten, every other
field keeps its value. -/
def applyUpdate (r : Task) (u : TaskUpdate) : Task :=
  { r with
    name := u.name.getD r.name
    description := match u.description with | some d => some d | none => r.description
    status_id := u.status_id.getD r.status_id
    flag_id := u.flag_id.getD r.flag_id }

/-- `if not update_data` in `TaskCRUD.update`: no field of the `TaskUpdate`
is present. -/
def noFields (u : TaskUpdate) : Bool :=
  u.name.isNone && u.description.isNone && u.status_id.isNone && u.flag_id.isNone

namespace TaskCRUD

/-- `TaskCRUD.update` (`app/db/crud.py`): existence check first (`None` when
absent); with no supplied fields the unchanged row is returned; otherwise the
dynamic UPDATE runs, re-checking the DDL constraints on the updated row.
Only `ForeignKeyViolationError` is converted to `ValueError`;
`UniqueViolationError` and `CheckViolationError` propagate. -/
def update (st : Store) (tid : Int) (u : TaskUpdate) :
    Store × Except PyError (Option Task) :=
  match st.rows.find? (fun r => r.id == tid) with
  | none => (st, .ok none)
  | some t =>
    if noFields u then (st, .ok (some t))
    else
      let t' := applyUpdate t u
      if ¬ statusOk t'.status_id then (st, .error (.dbErr .checkViolation))
      else if ¬ flagOk t'.flag_id then (st, .error (.dbErr .checkViolation))
      else if st.rows.any (fun r => r.id != tid && r.name == t'.name) then
        (st, .error (.dbErr .uniqueViolation))
      else
        (⟨st.rows.map (fun r => if r.id == tid then applyUpdate r u else r), st.nextId⟩,
         .ok (some t'))

/-- `TaskCRUD.delete` (`app/db/crud.py`): `DELETE FROM tasks WHERE id = $1`;
the returned flag is `result == "DELETE 1"`, i.e. exactly one row removed. -/
def delete (st : Store) (tid : Int) : Store × Bool :=
  (⟨st.rows.filter (fun r => r.id != tid), st.nextId⟩,
   st.rows.countP (fun r => r.id == tid) == 1)

/-- `TaskCRUD.delete_batch` (`app/db/crud.py`): `DELETE FROM tasks WHERE id =
ANY($1)`, returning the number of rows removed; the empty list short-circuits
to 0. -/
def delete_batch (st : Store) (tids : List Int) : Store × Nat :=
  if tids.isEmpty then (st, 0)
  else
    (⟨st.rows.filter (fun r => ¬ tids.contains r.id), st.nextId⟩,
     st.rows.countP (fun r => tids.contains r.id))

end TaskCRUD

/-- The aggregate row of `TaskCRUD.get_stats`. -/
structure StatsRow where
  total_tasks : Nat
  pending_tasks : Nat
  in_progress_tasks : Nat
  completed_tasks : Nat
  tasks_with_description : Nat
deriving Repr, DecidableEq

namespace TaskCRUD

/-- `TaskCRUD.get_stats` (`app/db/crud.py`): one aggregate SELECT counting
all rows, the rows per status value, and the rows with a non-NULL
description. -/
def get_stats (st : Store) : StatsRow :=
  { total_tasks := st.rows.length
    pending_tasks := st.rows.countP (fun r => r.status_id == 1)
    in_progress_tasks := st.rows.countP (fun r => r.status_id == 2)
    completed_tasks := st.rows.countP (fun r => r.status_id == 3)
    tasks_with_description := st.rows.countP (fun r => r.description.isSome) }

end TaskCRUD

/-- Python `round()` to an integer: round-half-to-even on the exact value
(the handler's arithmetic is modelled exactly over ℚ). -/
def pyRoundInt (q : ℚ) : Int :=
  let n := ⌊q⌋
  let frac := q - (n : ℚ)
  if frac < 1/2 then n
  else if 1/2 < frac then n + 1
  else if n % 2 = 0 then n else n + 1

/-- Python `round(x, 2)`. -/
def pyRound2 (q : ℚ) : ℚ := (pyRoundInt (q * 100) : ℚ) / 100

/-- An HTTP outcome: the response status, the decoded success body when one
is produced, and the store after the request. -/
structure HttpOut (α : Type) where
  status : Nat
  body : Option α
  store : Store
deriving Repr, DecidableEq

/-- `create_task` (`app/api/routes_tasks.py`): `ValueError` maps to 400, any
other failure to 500, success to 201 with the created row. -/
def create_task (st : Store) (t : TaskCreate) : HttpOut Task :=
  match TaskCRUD.create st t with
  | (st', .ok row) => ⟨201, some row, st'⟩
  | (st', .error (.valueError _)) => ⟨400, none, st'⟩
  | (st', .error _) => ⟨500, none, st'⟩

/-- `create_tasks_batch` (`app/api/routes_tasks.py`): empty batch and batch
over 100 are rejected with 400 before the engine call; any engine failure
maps to 500; success to 201. -/
def create_tasks_batch (st : Store) (ts : List TaskCreate) : HttpOut (List Task) :=
  if ts.isEmpty then ⟨400, none, st⟩
  else if 100 < ts.length then ⟨400, none, st⟩
  else
    match TaskCRUD.create_batch st ts with
    | (st', .ok rows) => ⟨201, some rows, st'⟩
    | (st', .error _) => ⟨500, none, st'⟩

/-- The `elif status_id is not None ... else ...` fallback of `get_tasks`. -/
def get_tasks_noSearch (st : Store) (limit offset : Nat) (status_id : Option Int) :
    List Task :=
  match status_id with
  | some sid => TaskCRUD.get_by_status st sid limit
  | none => TaskCRUD.get_all st limit offset

/-- `get_tasks` (`app/api/routes_tasks.py`): `if search:` is Python
truthiness, so both a missing `search` and the empty string fall through to
the `status_id` filter or plain pagination. -/
def get_tasks (st : Store) (limit offset : Nat) (status_id : Option Int)
    (search : Option String) : HttpOut (List Task) :=
  match search with
  | some s =>
    if s = "" then ⟨200, some (get_tasks_noSearch st limit offset status_id), st⟩
    else ⟨200, some (TaskCRUD.search_tasks st s limit), st⟩
  | none => ⟨200, some (get_tasks_noSearch st limit offset status_id), st⟩

/-- `get_task` (`app/api/routes_tasks.py`). -/
def get_task (st : Store) (tid : Int) : HttpOut Task :=
  match TaskCRUD.get_by_id st tid with
  | none => ⟨404, none, st⟩
  | some t => ⟨200, some t, st⟩

/-- `update_task` (`app/api/routes_tasks.py`): `None` from the engine maps
to 404, `ValueError` to 400, any other failure to 500. -/
def update_task (st : Store) (tid : Int) (u : TaskUpdate) : HttpOut Task :=
  match TaskCRUD.update st tid u with
  | (st', .ok none) => ⟨404, none, st'⟩
  | (st', .ok (some t)) => ⟨200, some t, st'⟩
  | (st', .error (.valueError _)) => ⟨400, none, st'⟩
  | (st', .error _) => ⟨500, none, st'⟩

/-- `delete_task` (`app/api/routes_tasks.py`): 204 on removal, 404 when the
engine reports that no row was removed. -/
def delete_task (st : Store) (tid : Int) : HttpOut Unit :=
  match TaskCRUD.delete st tid with
  | (st', true) => ⟨204, some (), st'⟩
  | (st', false) => ⟨404, none, st'⟩

/-- `delete_tasks_batch` (`app/api/routes_tasks.py`): empty list and list
over 100 map to 400 before the engine call, zero deletions to 404, otherwise
204. -/
def delete_tasks_batch (st : Store) (tids : List Int) : HttpOut Unit :=
  if tids.isEmpty then ⟨400, none, st⟩
  else if 100 < tids.length then ⟨400, none, st⟩
  else
    match TaskCRUD.delete_batch st tids with
    | (st', 0) => ⟨404, none, st'⟩
    | (st', _ + 1) => ⟨204, some (), st'⟩

/-- The statistics response body built by `get_task_stats`. -/
structure StatsOut where
  total_tasks : Nat
  pending_tasks : Nat
  in_progress_tasks : Nat
  completed_tasks : Nat
  tasks_with_description : Nat
  completion_rate : ℚ
deriving Repr, DecidableEq

/-- `get_task_stats` (`app/api/routes_tasks.py`): the five counts plus
`round((completed / total * 100) if total > 0 else 0, 2)`. -/
def get_task_stats (st : Store) : StatsOut :=
  let s := TaskCRUD.get_stats st
  { total_tasks := s.total_tasks
    pending_tasks := s.pending_tasks
    in_progress_tasks := s.in_progress_tasks
    completed_tasks := s.completed_tasks
    tasks_with_description := s.tasks_with_description
    completion_rate :=
      pyRound2 (if 0 < s.total_tasks then (s.completed_tasks : ℚ) / (s.total_tasks : ℚ) * 100
        else 0) }

/-! ### Router model

`APIRouter` dispatches a request to the first registered route whose path
pattern and method match (FastAPI/Starlette match routes in registration
order).  The path parameter of `/tasks/\x7btask_id\x7d` is captured by the
regex `[^/]+` and only afterwards validated as `int`; a value that is not an
integer produces a 422 validation response. -/

/-- HTTP method of a request or route. -/
inductive HMethod where
  | get
  | post
  | put
  | delete
deriving Repr, DecidableEq

/-- One handler of `app/api/routes_tasks.py`. -/
inductive HandlerTag where
  | createTaskH
  | createBatchH
  | listTasksH
  | getTaskH
  | updateTaskH
  | deleteTaskH
  | deleteBatchH
  | statsSummaryH
  | healthH
deriving Repr, DecidableEq

/-- A route path pattern: a fixed segment list, or the parameterised shape
`/tasks/\x7btask_id\x7d` (one nonempty segment after `tasks`). -/
inductive PathPat where
  | exactP (segs : List String)
  | tasksParamP
deriving Repr, DecidableEq

/-- Whether a pattern matches a path (as its list of segments); for the
parameterised pattern the captured raw segment is returned. -/
def matchPat : PathPat → List String → Option (Option String)
  | .exactP ss, path => if path = ss then some none else none
  | .tasksParamP, path =>
    match path with
    | ["tasks", s] => if s = "" then none else some (some s)
    | _ => none

/-- The routes of `app/api/routes_tasks.py` in registration order. -/
def routeTable : List (HMethod × PathPat × HandlerTag) :=
  [ (.post, .exactP ["tasks", ""], .createTaskH),
    (.post, .exactP ["tasks", "batch"], .createBatchH),
    (.get, .exactP ["tasks", ""], .listTasksH),
    (.get, .tasksParamP, .getTaskH),
    (.put, .tasksParamP, .updateTaskH),
    (.delete, .tasksParamP, .deleteTaskH),
    (.delete, .exactP ["tasks", "batch"], .deleteBatchH),
    (.get, .exactP ["tasks", "stats", "summary"], .statsSummaryH),
    (.get, .exactP ["health"], .healthH) ]

/-- First route in registration order whose method and path pattern match. -/
def resolveRoute (m : HMethod) (path : List String) :
    Option (HandlerTag × Option String) :=
  routeTable.findSome? (fun e =>
    if e.1 = m then (matchPat e.2.1 path).map (fun cap => (e.2.2, cap)) else none)

/-- Decimal digits of a Python int literal. -/
def parseDigits (cs : List Char) : Option Nat :=
  cs.foldl
    (fun acc c =>
      match acc with
      | some n => if c.isDigit then some (10 * n + (c.toNat - 48)) else none
      | none => none)
    (some 0)

/-- Python `int(s)` on a path parameter: optional sign plus decimal digits;
anything else raises, which FastAPI turns into a validation error. -/
def pyInt (s : String) : Option Int :=
  match s.data with
  | [] => none
  | '-' :: rest =>
    if rest.isEmpty then none else (parseDigits rest).map (fun n => -(n : Int))
  | cs => (parseDigits cs).map (fun n => (n : Int))

/-- Dispatch of a DELETE request carrying a JSON list of ids: the first
matching route wins; a non-integer `task_id` path parameter yields 422. -/
def dispatchDelete (st : Store) (path : List String) (ids : List Int) : HttpOut Unit :=
  match resolveRoute .delete path with
  | some (.deleteTaskH, some raw) =>
    (match pyInt raw with
     | none => ⟨422, none, st⟩
     | some tid => delete_task st tid)
  | some (.deleteBatchH, _) => delete_tasks_batch st ids
  | _ => ⟨404, none, st⟩

/-! ### Wire-level request model

A JSON object field is absent, an explicit `null`, or a value; pydantic
validation of the schema classes maps this to the Python field values. -/

/-- A field of a JSON request body. -/
inductive JField (α : Type) where
  | absent
  | null
  | val (a : α)
deriving Repr, DecidableEq

/-- pydantic `Optional[T] = None`: absent and explicit `null` both become
`None`; a value is kept.  The result type is the `Optional[T]` field value,
so absence information is lost. -/
def jOptional {α : Type} (f : JField α) : Option α :=
  match f with
  | .val v => some v
  | _ => none

/-- pydantic required field `x : T`: absent and `null` are validation
errors. -/
def jRequired {α : Type} (f : JField α) : Option α :=
  match f with
  | .val v => some v
  | _ => none

/-- pydantic `x : int = d`: absent takes the default, `null` is a validation
error (the annotation is not `Optional`), a value is kept. -/
def jIntDefault (d : Int) (f : JField Int) : Option Int :=
  match f with
  | .absent => some d
  | .null => none
  | .val v => some v

/-- The JSON body of a create request. -/
structure TaskCreateWire where
  name : JField String
  description : JField String
  status_id : JField Int
  flag_id : JField Int
deriving Repr, DecidableEq

/-- pydantic validation of `TaskCreate` (`app/schemas/task.py`): `name : str`
required; `description : Optional[str] = None`; `status_id : int = 1`;
`flag_id : int = 1`.  No validator or length constraint restricts `name`. -/
def parseTaskCreate (w : TaskCreateWire) : Option TaskCreate :=
  match jRequired w.name, jIntDefault 1 w.status_id, jIntDefault 1 w.flag_id with
  | some n, some s, some f => some ⟨n, jOptional w.description, s, f⟩
  | _, _, _ => none

/-- The JSON body of an update request. -/
structure TaskUpdateWire where
  name : JField String
  description : JField String
  status_id : JField Int
  flag_id : JField Int
deriving Repr, DecidableEq

/-- pydantic validation of `TaskUpdate` (`app/schemas/task.py`): every field
is `Optional[...] = None`, so validation always succeeds and an explicit
`null` is stored exactly like an absent field. -/
def parseTaskUpdate (w : TaskUpdateWire) : TaskUpdate :=
  ⟨jOptional w.name, jOptional w.description, jOptional w.status_id, jOptional w.flag_id⟩

/-! ### Spec-side definitions

These follow the wording of the specification, to be compared with the
definitions above that embed the code. -/

/-- `needle` is a prefix of `hay`. -/
def listStartsWith : List Char → List Char → Bool
  | [], _ => true
  | _ :: _, [] => false
  | a :: as, b :: bs => (b == a) && listStartsWith as bs

/-- `needle` occurs contiguously somewhere in `hay`. -/
def listContains (needle : List Char) : List Char → Bool
  | [] => listStartsWith needle []
  | c :: hs => listStartsWith needle (c :: hs) || listContains needle hs

/-- The spec's match notion for `searchTasks`: case-insensitive substring. -/
def containsCI (hay needle : String) : Bool :=
  listContains (lowerStr needle) (lowerStr hay)

/-- The term occurs (case-insensitively) in the row's name. -/
def nameHasTerm (term : String) (r : Task) : Bool := containsCI r.name term

/-- The term occurs (case-insensitively) in the row's description (a missing
description matches nothing). -/
def descHasTerm (term : String) (r : Task) : Bool :=
  match r.description with
  | none => false
  | some d => containsCI d term

/-- The search result exactly as the spec sentence describes it: the rows
whose name matches, in ascending id order, then the rows where only the
description matches, in ascending id order, truncated to the limit. -/
def searchSpec (st : Store) (term : String) (limit : Nat) : List Task :=
  (sortById (st.rows.filter (nameHasTerm term)) ++
      sortById (st.rows.filter (fun r => descHasTerm term r && !nameHasTerm term r))).take
    limit

/-! ### Concrete stores used by the theorems -/

/-- Three rows with ids 1, 2, 3. -/
def stC3 : Store :=
  ⟨[⟨1, "a", none, 1, 1⟩, ⟨2, "b", none, 1, 1⟩, ⟨3, "c", none, 1, 1⟩], 4⟩

/-- One row with id 1. -/
def stC4 : Store := ⟨[⟨1, "a", none, 1, 1⟩], 2⟩

/-- One row with id 1 and a description. -/
def stC5 : Store := ⟨[⟨1, "a", some "keep", 1, 1⟩], 2⟩

/-- The spec §8 example: Alpha, Beta pending, Gamma completed. -/
def stC9 : Store :=
  ⟨[⟨1, "Alpha", none, 1, 1⟩, ⟨2, "Beta", none, 1, 1⟩, ⟨3, "Gamma", none, 3, 1⟩], 4⟩

/-- Two rows: id 1 has status 2, id 2 has status 1. -/
def stC10 : Store := ⟨[⟨1, "a", none, 2, 1⟩, ⟨2, "b", none, 1, 1⟩], 3⟩

/-- Update request with every field omitted. -/
def wireAllAbsent : TaskUpdateWire := ⟨.absent, .absent, .absent, .absent⟩

/-- Update request with `description` explicitly `null` and every other
field omitted. -/
def wireNullDesc : TaskUpdateWire := ⟨.absent, .null, .absent, .absent⟩

/-- The row of `stC5` before the C6 witness update. -/
def tC6old : Task := ⟨1, "a", some "keep", 1, 1⟩

/-- The row after applying the C6 witness update. -/
def tC6new : Task := ⟨1, "b", some "keep", 2, 1⟩

/-- The C6 witness update: new name and status, description and flag left
unsupplied. -/
def uC6 : TaskUpdate := ⟨some "b", none, some 2, none⟩

/-- Search example: the term `abc` occurs in the name of row 2 and only in
the descriptions of rows 1 and 3. -/
def stC2 : Store :=
  ⟨[⟨1, "Alpha", some "has abc", 2, 1⟩, ⟨2, "xABCx", none, 1, 1⟩,
    ⟨3, "Gamma", some "ABC too", 3, 2⟩], 4⟩

/-- Single-row store for the C2 counterexample. -/
def stC2cex : Store := ⟨[⟨1, "a", none, 1, 1⟩], 2⟩

/-! ### Helper lemmas -/

/-- `pyRoundInt` at a value whose fractional part is below one half is the
floor. -/
theorem pyRoundInt_eq_of_frac_lt {q : ℚ} {n : Int} (h1 : ⌊q⌋ = n)
    (h2 : q - (n : ℚ) < 1/2) : pyRoundInt q = n := by
  simp only [pyRoundInt, h1]
  rw [if_pos h2]

/-- Python `round(0, 2) = 0`. -/
theorem pyRound2_zero : pyRound2 0 = 0 := by
  have h : pyRoundInt 0 = 0 := pyRoundInt_eq_of_frac_lt (by norm_num) (by norm_num)
  simp [pyRound2, h]

/-! ### Claim theorems -/

/-- C1: the claim fails on the code, which contradicts the `RETURNING`
clause of its own INSERT.  For a valid batch of 1–100 `TaskCreate` inputs,
`create_tasks_batch` responds 500 with the store unchanged instead of 201
with the created entities: `asyncpg.Connection.executemany` returns `None`
(no rows), so building the result list raises `TypeError` inside the
transaction block and the whole batch rolls back.  A batch with an internal
failure (here a duplicated name) likewise leaves the store unchanged. -/
theorem C1_createBatch_raises :
    create_tasks_batch ⟨[], 1⟩ [⟨"a", none, 1, 1⟩] = ⟨500, none, ⟨[], 1⟩⟩ ∧
    create_tasks_batch ⟨[], 1⟩ [⟨"a", none, 1, 1⟩, ⟨"b", none, 1, 1⟩] =
      ⟨500, none, ⟨[], 1⟩⟩ ∧
    create_tasks_batch ⟨[], 1⟩ [⟨"a", none, 1, 1⟩, ⟨"a", none, 1, 1⟩] =
      ⟨500, none, ⟨[], 1⟩⟩ := by decide

/-- C3: the handler `delete_tasks_batch` itself behaves exactly as claimed —
204 on a partial match (ids [1,2,999] with only 1, 2 present deletes the two
matching rows), 400 on an empty or oversized id list, 404 when no id
matches — but an actual `DELETE /tasks/batch` request never reaches it: the
route `/tasks/{task_id}` is registered earlier, captures the literal segment
`batch`, and `int` validation of the path parameter fails, so the dispatch
answers 422. -/
theorem C3_deleteBatch_shadowed :
    dispatchDelete stC3 ["tasks", "batch"] [1, 2, 999] = ⟨422, none, stC3⟩ ∧
    delete_tasks_batch stC3 [1, 2, 999] =
      ⟨204, some (), ⟨[⟨3, "c", none, 1, 1⟩], 4⟩⟩ ∧
    (TaskCRUD.delete_batch stC3 [1, 2, 999]).2 = 2 ∧
    delete_tasks_batch stC3 [] = ⟨400, none, stC3⟩ ∧
    delete_tasks_batch stC3 (List.replicate 101 7) = ⟨400, none, stC3⟩ ∧
    delete_tasks_batch stC3 [999] = ⟨404, none, stC3⟩ := by decide

/-- C4: the claim fails on the code.  An out-of-range `status_id` or
`flag_id` violates a CHECK constraint (the schema declares no foreign keys),
so asyncpg raises `CheckViolationError`; the CRUD layer only converts
`ForeignKeyViolationError` to `ValueError`, hence the routes map the failure
to HTTP 500, not 400, on both the create and the update path. -/
theorem C4_invalid_reference_500 :
    create_task stC4 ⟨"x", none, 9, 1⟩ = ⟨500, none, stC4⟩ ∧
    create_task stC4 ⟨"y", none, 1, 5⟩ = ⟨500, none, stC4⟩ ∧
    update_task stC4 1 ⟨none, none, some 9, none⟩ = ⟨500, none, stC4⟩ ∧
    update_task stC4 1 ⟨none, none, none, some 5⟩ = ⟨500, none, stC4⟩ := by decide

/-- C5 counterexample: the two distinct wire requests «description omitted»
and «description explicitly null» validate to the same `TaskUpdate`, and the
update consequently leaves the description unchanged instead of clearing
it — "set to null" is not distinguishable from "absent". -/
theorem C5_null_equals_absent :
    wireNullDesc ≠ wireAllAbsent ∧
    parseTaskUpdate wireNullDesc = parseTaskUpdate wireAllAbsent ∧
    update_task stC5 1 (parseTaskUpdate wireNullDesc) =
      ⟨200, some ⟨1, "a", some "keep", 1, 1⟩, stC5⟩ := by decide

/-- C5 amended: in `TaskUpdate` a field supplied with a non-null value
(including an empty string) is distinguishable from an absent field and is
applied, but a field explicitly set to null is parsed identically to an
absent field — for every request and store the resulting update behaves the
same — so update can set `description` to an empty string but not to
null. -/
theorem C5_presence_amended (w : TaskUpdateWire) (st : Store) (tid : Int)
    (v : String) (i : Int) :
    parseTaskUpdate { w with description := .null } =
      parseTaskUpdate { w with description := .absent } ∧
    update_task st tid (parseTaskUpdate { w with description := .null }) =
      update_task st tid (parseTaskUpdate { w with description := .absent }) ∧
    (parseTaskUpdate { w with description := .val v }).description = some v ∧
    (parseTaskUpdate { w with description := .absent }).description = none ∧
    (parseTaskUpdate { w with name := .val v }).name = some v ∧
    (parseTaskUpdate { w with name := .null }).name = none ∧
    (parseTaskUpdate { w with status_id := .val i }).status_id = some i ∧
    (parseTaskUpdate { w with status_id := .null }).status_id = none := by
  simp [parseTaskUpdate, jOptional]

/-- C7 counterexample: `TaskCreate` validation accepts the empty name (the
schema declares `name : str` with no length constraint or validator), and
the whole create path stores the row with the empty name. -/
theorem C7_empty_name_accepted :
    parseTaskCreate ⟨.val "", .absent, .absent, .absent⟩ = some ⟨"", none, 1, 1⟩ ∧
    create_task ⟨[], 1⟩ ⟨"", none, 1, 1⟩ =
      ⟨201, some ⟨1, "", none, 1, 1⟩, ⟨[⟨1, "", none, 1, 1⟩], 2⟩⟩ := by decide

/-- C7 amended: `TaskCreate` construction succeeds exactly when `name` is
supplied as a string — the empty string included — and `status_id`/`flag_id`
are not explicit nulls; `description` is optional and `status_id`/`flag_id`
default to 1 when absent. -/
theorem C7_create_validation_amended (w : TaskCreateWire) :
    ((parseTaskCreate w).isSome ↔
      (∃ n, w.name = .val n) ∧ w.status_id ≠ .null ∧ w.flag_id ≠ .null) ∧
    (∀ n, w.name = .val n → w.status_id = .absent → w.flag_id = .absent →
      parseTaskCreate w = some ⟨n, jOptional w.description, 1, 1⟩) := by
  obtain ⟨n, d, s, f⟩ := w
  constructor
  · cases n <;> cases s <;> cases f <;>
      simp [parseTaskCreate, jRequired, jIntDefault]
  · intro n' hn hs hf
    subst hn; subst hs; subst hf
    simp [parseTaskCreate, jRequired, jIntDefault]

/-- C7 amended witness: a concrete create request with only a name
validates to the defaults. -/
theorem C7_create_validation_amended_witness :
    parseTaskCreate ⟨.val "task", .absent, .absent, .absent⟩ =
      some ⟨"task", none, 1, 1⟩ :=
  (C7_create_validation_amended ⟨.val "task", .absent, .absent, .absent⟩).2
    "task" rfl rfl rfl

/-- C9: for every store the statistics response carries `completion_rate =
completed / total * 100` rounded to two decimals when `total > 0` and `0`
when the table is empty (the guard avoids the division); on the spec §8
example (three tasks, one completed) the rate is 33.33. -/
theorem C9_completion_rate :
    (∀ st : Store, (get_task_stats st).completion_rate =
      if st.rows.length = 0 then 0
      else pyRound2 ((((st.rows.filter (fun r => r.status_id == 3)).length : ℚ) /
        (st.rows.length : ℚ)) * 100)) ∧
    (get_task_stats ⟨[], 5⟩).completion_rate = 0 ∧
    (get_task_stats stC9).completion_rate = 3333 / 100 := by
  have hmain : ∀ st : Store, (get_task_stats st).completion_rate =
      if st.rows.length = 0 then 0
      else pyRound2 ((((st.rows.filter (fun r => r.status_id == 3)).length : ℚ) /
        (st.rows.length : ℚ)) * 100) := by
    intro st
    simp only [get_task_stats, TaskCRUD.get_stats, List.countP_eq_length_filter]
    rcases Nat.eq_zero_or_pos st.rows.length with h | h
    · rw [if_pos h, if_neg (by omega), pyRound2_zero]
    · rw [if_pos h, if_neg (by omega)]
  refine ⟨hmain, ?_, ?_⟩
  · rw [hmain]; rfl
  · rw [hmain]
    have hlen : stC9.rows.length = 3 := rfl
    have hcount : (stC9.rows.filter (fun r => r.status_id == 3)).length = 1 := rfl
    rw [if_neg (by rw [hlen]; omega), hlen, hcount]
    have h1 : pyRoundInt (((1 : Nat) : ℚ) / ((3 : Nat) : ℚ) * 100 * 100) = 3333 := by
      refine pyRoundInt_eq_of_frac_lt ?_ (by push_cast; norm_num)
      rw [Int.floor_eq_iff]
      push_cast
      norm_num
    simp only [pyRound2, h1]
    norm_num

/-- C10 counterexample: with `search` supplied as the empty string and
`status_id` supplied, `get_tasks` applies the status filter — Python's
`if search:` is false for `""` — although the search operation would return
a different list. -/
theorem C10_empty_search_counterexample :
    get_tasks stC10 100 0 (some 2) (some "") =
      ⟨200, some [⟨1, "a", none, 2, 1⟩], stC10⟩ ∧
    TaskCRUD.search_tasks stC10 "" 100 =
      [⟨1, "a", none, 2, 1⟩, ⟨2, "b", none, 1, 1⟩] := by decide

/-- C10 amended: for every `GET /tasks/` request, a supplied non-empty
`search` triggers the search operation (ignoring `status_id` and `offset`);
otherwise — `search` absent or empty — a supplied `status_id` triggers the
status filter, and failing both the route falls back to plain
pagination. -/
theorem C10_dispatch_amended (st : Store) (limit offset : Nat)
    (sid : Option Int) (search : Option String) :
    (∀ s, search = some s → s ≠ "" →
      get_tasks st limit offset sid search =
        ⟨200, some (TaskCRUD.search_tasks st s limit), st⟩) ∧
    ((search = none ∨ search = some "") → ∀ i, sid = some i →
      get_tasks st limit offset sid search =
        ⟨200, some (TaskCRUD.get_by_status st i limit), st⟩) ∧
    ((search = none ∨ search = some "") → sid = none →
      get_tasks st limit offset sid search =
        ⟨200, some (TaskCRUD.get_all st limit offset), st⟩) := by
  refine ⟨?_, ?_, ?_⟩
  · rintro s rfl hs
    simp [get_tasks, hs]
  · rintro (rfl | rfl) i rfl <;> simp [get_tasks, get_tasks_noSearch]
  · rintro (rfl | rfl) rfl <;> simp [get_tasks, get_tasks_noSearch]

/-- C10 amended witness: a concrete request where the non-empty search term
wins over the supplied status filter. -/
theorem C10_dispatch_amended_witness :
    get_tasks stC10 100 0 (some 2) (some "b") =
      ⟨200, some (TaskCRUD.search_tasks stC10 "b" 100), stC10⟩ :=
  (C10_dispatch_amended stC10 100 0 (some 2) (some "b")).1 "b" rfl (by decide)

/-- At most one row of a list with pairwise-distinct ids matches a given
id. -/
theorem countP_id_le_one {l : List Task} (h : (l.map Task.id).Nodup)
    (tid : Int) : l.countP (fun r => r.id == tid) ≤ 1 := by
  induction l with
  | nil => simp
  | cons a l ih =>
    rw [List.map_cons, List.nodup_cons] at h
    rw [List.countP_cons]
    by_cases ha : a.id = tid
    · have h0 : l.countP (fun r => r.id == tid) = 0 := by
        rw [List.countP_eq_zero]
        intro r hr hcon
        exact h.1 (List.mem_map.2 ⟨r, hr, by rw [beq_iff_eq] at hcon; omega⟩)
      simp [h0, ha]
    · have := ih h.2
      simp only [show (a.id == tid) = false from by simpa using ha]
      simpa using this

/-- Removing the rows that match an id shortens a list by at most the
number of matching rows. -/
theorem length_le_filter_add_countP (l : List Task) (tid : Int) :
    l.length ≤ (l.filter (fun r => r.id != tid)).length +
      l.countP (fun r => r.id == tid) := by
  induction l with
  | nil => simp
  | cons a l ih =>
    by_cases h : a.id = tid <;>
      simp [List.filter_cons, List.countP_cons, h] <;> omega

/-- C8: `TaskCRUD.delete` removes at most one row of a store with distinct
ids and reports whether a row was removed, and a second delete of the same
id reports no removal, which `delete_task` maps to HTTP 404 with the store
untouched. -/
theorem C8_delete_idempotent (st : Store) (tid : Int)
    (hids : (st.rows.map Task.id).Nodup) :
    st.rows.length ≤ (TaskCRUD.delete st tid).1.rows.length + 1 ∧
    ((TaskCRUD.delete st tid).2 = true ↔ ∃ r ∈ st.rows, r.id = tid) ∧
    (TaskCRUD.delete (TaskCRUD.delete st tid).1 tid).2 = false ∧
    delete_task (TaskCRUD.delete st tid).1 tid =
      ⟨404, none, (TaskCRUD.delete st tid).1⟩ := by
  have hle := countP_id_le_one hids tid
  have hcnt0 : (st.rows.filter (fun r => r.id != tid)).countP
      (fun r => r.id == tid) = 0 := by
    rw [List.countP_eq_zero]
    intro r hr hcon
    have hmem := List.mem_filter.1 hr
    rw [beq_iff_eq] at hcon
    exact absurd hcon (by simpa using hmem.2)
  have hfil : (st.rows.filter (fun r => r.id != tid)).filter
      (fun r => r.id != tid) = st.rows.filter (fun r => r.id != tid) := by
    rw [List.filter_eq_self]
    intro r hr
    exact (List.mem_filter.1 hr).2
  refine ⟨?_, ?_, ?_, ?_⟩
  · have := length_le_filter_add_countP st.rows tid
    simp only [TaskCRUD.delete]
    omega
  · simp only [TaskCRUD.delete, beq_iff_eq, Nat.beq_eq_true_eq]
    constructor
    · intro h1
      by_contra hno
      push_neg at hno
      have : st.rows.countP (fun r => r.id == tid) = 0 := by
        rw [List.countP_eq_zero]
        intro r hr hcon
        exact hno r hr (by rwa [beq_iff_eq] at hcon)
      omega
    · rintro ⟨r, hr, rfl⟩
      have hne : st.rows.countP (fun r' => r'.id == r.id) ≠ 0 := by
        rw [Ne, List.countP_eq_zero]
        push_neg
        exact ⟨r, hr, by simp⟩
      omega
  · simp only [TaskCRUD.delete]
    rw [hcnt0]
    rfl
  · simp only [delete_task, TaskCRUD.delete]
    rw [hcnt0, hfil]
    rfl

/-- C8 witness: deleting id 1 from the three-row store, then deleting it
again. -/
theorem C8_delete_idempotent_witness :
    stC3.rows.length ≤ (TaskCRUD.delete stC3 1).1.rows.length + 1 ∧
    ((TaskCRUD.delete stC3 1).2 = true ↔ ∃ r ∈ stC3.rows, r.id = 1) ∧
    (TaskCRUD.delete (TaskCRUD.delete stC3 1).1 1).2 = false ∧
    delete_task (TaskCRUD.delete stC3 1).1 1 =
      ⟨404, none, (TaskCRUD.delete stC3 1).1⟩ :=
  C8_delete_idempotent stC3 1 (by decide)

/-- In a list with pairwise-distinct ids, `find?` on an id returns the
member carrying that id. -/
theorem find?_id_of_nodup {l : List Task} (h : (l.map Task.id).Nodup)
    {t : Task} {tid : Int} (ht : t ∈ l) (htid : t.id = tid) :
    l.find? (fun r => r.id == tid) = some t := by
  induction l with
  | nil => simp at ht
  | cons a l ih =>
    rw [List.map_cons, List.nodup_cons] at h
    rcases List.mem_cons.1 ht with rfl | hmem
    · exact List.find?_cons_of_pos l (by simp [htid])
    · have hne : ¬ (a.id == tid) = true := by
        rw [beq_iff_eq]
        intro hcon
        exact h.1 (List.mem_map.2 ⟨t, hmem, by omega⟩)
      rw [List.find?_cons_of_neg l hne]
      exact ih h.2 hmem

/-- C6: on a store with distinct ids, `update_task` answers 404 with the
store untouched when no row has the id; with no supplied fields it returns
the row unchanged (store untouched); and whenever a row is returned, its id
equals the old id, every supplied field carries the supplied value and every
unsupplied field its prior value. -/
theorem C6_update_semantics (st : Store) (tid : Int) (u : TaskUpdate)
    (hids : (st.rows.map Task.id).Nodup) :
    ((∀ r ∈ st.rows, r.id ≠ tid) →
      update_task st tid u = ⟨404, none, st⟩) ∧
    (∀ t, t ∈ st.rows → t.id = tid → u = ⟨none, none, none, none⟩ →
      update_task st tid u = ⟨200, some t, st⟩) ∧
    (∀ t t', t ∈ st.rows → t.id = tid →
      (update_task st tid u).body = some t' →
      t'.id = t.id ∧
      t'.name = u.name.getD t.name ∧
      t'.description = (match u.description with
        | some d => some d
        | none => t.description) ∧
      t'.status_id = u.status_id.getD t.status_id ∧
      t'.flag_id = u.flag_id.getD t.flag_id) := by
  refine ⟨?_, ?_, ?_⟩
  · intro hab
    have h0 : st.rows.find? (fun r => r.id == tid) = none :=
      List.find?_eq_none.2 (fun r hr => by simpa using hab r hr)
    simp [update_task, TaskCRUD.update, h0]
  · intro t ht htid hu
    subst hu
    simp [update_task, TaskCRUD.update, find?_id_of_nodup hids ht htid, noFields]
  · intro t t' ht htid hbody
    have hf := find?_id_of_nodup hids ht htid
    by_cases hnf : noFields u
    · have hval : update_task st tid u = ⟨200, some t, st⟩ := by
        simp [update_task, TaskCRUD.update, hf, hnf]
      rw [hval] at hbody
      obtain rfl : t = t' := by simpa using hbody
      obtain ⟨⟨⟨h1, h2⟩, h3⟩, h4⟩ : ((u.name = none ∧ u.description = none) ∧
          u.status_id = none) ∧ u.flag_id = none := by
        simpa [noFields, Option.isNone_iff_eq_none] using hnf
      simp [h1, h2, h3, h4]
    · by_cases hst : statusOk (applyUpdate t u).status_id
      · by_cases hfl : flagOk (applyUpdate t u).flag_id
        · by_cases huniq : st.rows.any
              (fun r => r.id != tid && r.name == (applyUpdate t u).name)
          · have hval : update_task st tid u = ⟨500, none, st⟩ := by
              simp [update_task, TaskCRUD.update, hf, hnf, hst, hfl, huniq]
            rw [hval] at hbody
            simp at hbody
          · have hval : (update_task st tid u).body = some (applyUpdate t u) := by
              simp [update_task, TaskCRUD.update, hf, hnf, hst, hfl, huniq]
            rw [hval] at hbody
            obtain rfl : applyUpdate t u = t' := by simpa using hbody
            refine ⟨rfl, rfl, ?_, rfl, rfl⟩
            simp [applyUpdate]
        · have hval : update_task st tid u = ⟨500, none, st⟩ := by
            simp [update_task, TaskCRUD.update, hf, hnf, hst, hfl]
          rw [hval] at hbody
          simp at hbody
      · have hval : update_task st tid u = ⟨500, none, st⟩ := by
          simp [update_task, TaskCRUD.update, hf, hnf, hst]
        rw [hval] at hbody
        simp at hbody

/-- Unfolding `likeMatches` at a `%` head. -/
theorem likeMatches_percent (p t : List Char) :
    likeMatches ('%' :: p) t = anySuffix (likeMatches p) t := by
  rw [likeMatches.eq_def]
  rfl

/-- Unfolding `likeMatches` at a literal head against the empty text. -/
theorem likeMatches_lit_nil (c : Char) (p : List Char) (hc1 : c ≠ '%')
    (hc2 : c ≠ '_') (hc3 : c ≠ '\\') : likeMatches (c :: p) [] = false := by
  rw [likeMatches.eq_def]
  simp [hc1, hc2, hc3]

/-- Unfolding `likeMatches` at a literal head against a nonempty text. -/
theorem likeMatches_lit_cons (c : Char) (p : List Char) (hc1 : c ≠ '%')
    (hc2 : c ≠ '_') (hc3 : c ≠ '\\') (d : Char) (t : List Char) :
    likeMatches (c :: p) (d :: t) = ((d == c) && likeMatches p t) := by
  rw [likeMatches.eq_def]
  simp [hc1, hc2, hc3]

/-- `anySuffix` only looks at the values of its predicate. -/
theorem anySuffix_congr {f g : List Char → Bool} (h : ∀ u, f u = g u) :
    ∀ t, anySuffix f t = anySuffix g t
  | [] => by simp [anySuffix, h]
  | c :: t => by simp [anySuffix, h, anySuffix_congr h t]

/-- A trailing `%` accepts every text. -/
theorem anySuffix_isEmpty : ∀ t, anySuffix List.isEmpty t = true
  | [] => rfl
  | c :: t => by simp [anySuffix, anySuffix_isEmpty t]

/-- Scanning the suffixes for a prefix is exactly the substring test. -/
theorem anySuffix_listStartsWith (xs : List Char) :
    ∀ t, anySuffix (listStartsWith xs) t = listContains xs t
  | [] => rfl
  | c :: t => by simp [anySuffix, listContains, anySuffix_listStartsWith xs t]

/-- A wildcard-free pattern followed by `%` matches the texts it is a prefix
of. -/
theorem likeMatches_lit_append (xs : List Char)
    (h : ∀ c ∈ xs, c ≠ '%' ∧ c ≠ '_' ∧ c ≠ '\\') :
    ∀ t, likeMatches (xs ++ ['%']) t = listStartsWith xs t := by
  induction xs with
  | nil =>
    intro t
    rw [List.nil_append, likeMatches_percent]
    have h2 : likeMatches [] = List.isEmpty := rfl
    rw [h2, anySuffix_isEmpty]
    rfl
  | cons c xs ih =>
    intro t
    obtain ⟨hc1, hc2, hc3⟩ := h c (List.mem_cons_self c xs)
    have ih' := ih (fun d hd => h d (List.mem_cons_of_mem c hd))
    rw [List.cons_append]
    cases t with
    | nil => rw [likeMatches_lit_nil c _ hc1 hc2 hc3]; rfl
    | cons d t1 =>
      rw [likeMatches_lit_cons c _ hc1 hc2 hc3, ih' t1]
      rfl

/-- `%xs%` with wildcard-free `xs` matches exactly the texts containing
`xs`. -/
theorem likeMatches_pattern (xs : List Char)
    (h : ∀ c ∈ xs, c ≠ '%' ∧ c ≠ '_' ∧ c ≠ '\\') (t : List Char) :
    likeMatches ('%' :: (xs ++ ['%'])) t = listContains xs t := by
  rw [likeMatches_percent,
    anySuffix_congr (likeMatches_lit_append xs h) t,
    anySuffix_listStartsWith]

/-- Case-folding the constructed search pattern. -/
theorem lowerStr_pattern (term : String) :
    lowerStr ("%" ++ term ++ "%") = '%' :: (lowerStr term ++ ['%']) := by
  simp [lowerStr]

/-- For a wildcard-free term, `ILIKE '%term%'` is the case-insensitive
substring test of the spec. -/
theorem ilike_contains (s term : String)
    (hw : ∀ c ∈ lowerStr term, c ≠ '%' ∧ c ≠ '_' ∧ c ≠ '\\') :
    ilike s ("%" ++ term ++ "%") = containsCI s term := by
  rw [ilike, lowerStr_pattern, likeMatches_pattern _ hw]
  rfl

/-- C6 witness: updating name and status of the concrete row changes
exactly those two fields. -/
theorem C6_update_semantics_witness :
    tC6new.id = tC6old.id ∧
    tC6new.name = uC6.name.getD tC6old.name ∧
    tC6new.description = (match uC6.description with
      | some d => some d
      | none => tC6old.description) ∧
    tC6new.status_id = uC6.status_id.getD tC6old.status_id ∧
    tC6new.flag_id = uC6.flag_id.getD tC6old.flag_id :=
  (C6_update_semantics stC5 1 uC6 (by decide)).2.2 tC6old tC6new
    (by decide) rfl (by decide)

/-- A filter on a disjunction is a permutation of the two spec groups: the
rows satisfying the first disjunct, then the rows satisfying only the
second. -/
theorem filter_or_perm {α : Type} (p q : α → Bool) (l : List α) :
    (l.filter (fun x => p x || q x)).Perm
      (l.filter p ++ l.filter (fun x => q x && !p x)) := by
  induction l with
  | nil => simp
  | cons a l ih =>
    by_cases hp : p a
    · simpa [List.filter_cons, hp] using ih.cons a
    · by_cases hq : q a
      · simp only [List.filter_cons, hp, hq]
        simp only [Bool.false_or, Bool.true_and, Bool.not_false, if_true, if_false]
        exact (ih.cons a).trans List.perm_middle.symm
      · simpa [List.filter_cons, hp, hq] using ih

/-- C2 amended: for every search term free of the ILIKE wildcard and escape
characters `%`, `_`, `\` and every store with distinct ids, `search_tasks`
returns exactly the rows whose name or description contains the term as a
case-insensitive substring, the name-matches first in ascending id order,
then the rows where only the description matches in ascending id order,
truncated to the limit. -/
theorem C2_search_semantics (st : Store) (term : String) (limit : Nat)
    (hw : ∀ c ∈ lowerStr term, c ≠ '%' ∧ c ≠ '_' ∧ c ≠ '\\')
    (hids : (st.rows.map Task.id).Nodup) :
    TaskCRUD.search_tasks st term limit = searchSpec st term limit := by
  have hname : ∀ r : Task, ilike r.name ("%" ++ term ++ "%") = nameHasTerm term r :=
    fun r => ilike_contains r.name term hw
  have hdesc : ∀ r : Task,
      descIlike ("%" ++ term ++ "%") r = descHasTerm term r := by
    intro r
    cases hd : r.description with
    | none => simp [descIlike, descHasTerm, hd]
    | some d => simp [descIlike, descHasTerm, hd, ilike_contains d term hw]
  have hrank1 : ∀ r : Task, nameHasTerm term r = true →
      searchRank ("%" ++ term ++ "%") r = 1 := by
    intro r h
    simp [searchRank, hname r, h]
  have hrank2 : ∀ r : Task, nameHasTerm term r = false →
      descHasTerm term r = true → searchRank ("%" ++ term ++ "%") r = 2 := by
    intro r h1 h2
    simp [searchRank, hname r, hdesc r, h1, h2]
  have hfe : st.rows.filter (fun r => ilike r.name ("%" ++ term ++ "%") ||
        descIlike ("%" ++ term ++ "%") r) =
      st.rows.filter (fun r => nameHasTerm term r || descHasTerm term r) :=
    List.filter_congr (fun r _ => by rw [hname r, hdesc r])
  have hmemA : ∀ r ∈ sortById (st.rows.filter (nameHasTerm term)),
      searchRank ("%" ++ term ++ "%") r = 1 := by
    intro r hr
    rw [sortById] at hr
    have hm := (List.perm_insertionSort idLe _).mem_iff.1 hr
    exact hrank1 r (List.mem_filter.1 hm).2
  have hmemB : ∀ r ∈ sortById (st.rows.filter
      (fun r => descHasTerm term r && !nameHasTerm term r)),
      searchRank ("%" ++ term ++ "%") r = 2 := by
    intro r hr
    rw [sortById] at hr
    have hm := (List.perm_insertionSort idLe _).mem_iff.1 hr
    have h2 := (List.mem_filter.1 hm).2
    rw [Bool.and_eq_true, Bool.not_eq_true'] at h2
    exact hrank2 r h2.2 h2.1
  have hsortA : (sortById (st.rows.filter (nameHasTerm term))).Sorted
      (sqlLe ("%" ++ term ++ "%")) := by
    have hs : (sortById (st.rows.filter (nameHasTerm term))).Sorted idLe := by
      rw [sortById]
      exact List.sorted_insertionSort idLe _
    refine List.Pairwise.imp_of_mem ?_ hs
    intro a b ha hb hle
    exact Or.inr ⟨by rw [hmemA a ha, hmemA b hb], hle⟩
  have hsortB : (sortById (st.rows.filter
      (fun r => descHasTerm term r && !nameHasTerm term r))).Sorted
      (sqlLe ("%" ++ term ++ "%")) := by
    have hs : (sortById (st.rows.filter
        (fun r => descHasTerm term r && !nameHasTerm term r))).Sorted idLe := by
      rw [sortById]
      exact List.sorted_insertionSort idLe _
    refine List.Pairwise.imp_of_mem ?_ hs
    intro a b ha hb hle
    exact Or.inr ⟨by rw [hmemB a ha, hmemB b hb], hle⟩
  have hsortR : (sortById (st.rows.filter (nameHasTerm term)) ++
      sortById (st.rows.filter
        (fun r => descHasTerm term r && !nameHasTerm term r))).Sorted
      (sqlLe ("%" ++ term ++ "%")) := by
    refine List.pairwise_append.2 ⟨hsortA, hsortB, ?_⟩
    intro a ha b hb
    exact Or.inl (by rw [hmemA a ha, hmemB b hb]; omega)
  have hpermM : (st.rows.filter
      (fun r => nameHasTerm term r || descHasTerm term r)).Perm
      (st.rows.filter (nameHasTerm term) ++ st.rows.filter
        (fun r => descHasTerm term r && !nameHasTerm term r)) := by
    have h := filter_or_perm (nameHasTerm term) (descHasTerm term) st.rows
    exact h
  have hpermL : ((st.rows.filter
      (fun r => nameHasTerm term r || descHasTerm term r)).insertionSort
        (sqlLe ("%" ++ term ++ "%"))).Perm
      (st.rows.filter (fun r => nameHasTerm term r || descHasTerm term r)) :=
    List.perm_insertionSort _ _
  have hpermR : (sortById (st.rows.filter (nameHasTerm term)) ++
      sortById (st.rows.filter
        (fun r => descHasTerm term r && !nameHasTerm term r))).Perm
      (st.rows.filter (nameHasTerm term) ++ st.rows.filter
        (fun r => descHasTerm term r && !nameHasTerm term r)) := by
    rw [sortById, sortById]
    exact (List.perm_insertionSort idLe _).append (List.perm_insertionSort idLe _)
  have hperm : ((st.rows.filter
      (fun r => nameHasTerm term r || descHasTerm term r)).insertionSort
        (sqlLe ("%" ++ term ++ "%"))).Perm
      (sortById (st.rows.filter (nameHasTerm term)) ++
        sortById (st.rows.filter
          (fun r => descHasTerm term r && !nameHasTerm term r))) :=
    hpermL.trans (hpermM.trans hpermR.symm)
  have hnodupM : ((st.rows.filter
      (fun r => nameHasTerm term r || descHasTerm term r)).map Task.id).Nodup :=
    hids.sublist ((List.filter_sublist _).map Task.id)
  have hpwL : ((st.rows.filter
      (fun r => nameHasTerm term r || descHasTerm term r)).insertionSort
        (sqlLe ("%" ++ term ++ "%"))).Pairwise (fun a b => a.id ≠ b.id) := by
    have hnd := ((hpermL.map Task.id).nodup_iff).2 hnodupM
    exact List.pairwise_map.1 hnd
  have hpwR : (sortById (st.rows.filter (nameHasTerm term)) ++
      sortById (st.rows.filter
        (fun r => descHasTerm term r && !nameHasTerm term r))).Pairwise
      (fun a b => a.id ≠ b.id) := by
    have hndL := ((hpermL.map Task.id).nodup_iff).2 hnodupM
    have hnd := ((hperm.map Task.id).nodup_iff).1 hndL
    exact List.pairwise_map.1 hnd
  have hup : ∀ a b : Task, sqlLe ("%" ++ term ++ "%") a b → a.id ≠ b.id →
      sqlLt ("%" ++ term ++ "%") a b := by
    intro a b h1 h2
    rcases h1 with h | ⟨h, h'⟩
    · exact Or.inl h
    · exact Or.inr ⟨h, lt_of_le_of_ne h' h2⟩
  have hsortL : ((st.rows.filter
      (fun r => nameHasTerm term r || descHasTerm term r)).insertionSort
        (sqlLe ("%" ++ term ++ "%"))).Sorted (sqlLe ("%" ++ term ++ "%")) :=
    List.sorted_insertionSort _ _
  have hstrictL := hsortL.imp₂ hup hpwL
  have hstrictR := hsortR.imp₂ hup hpwR
  have hLR := List.eq_of_perm_of_sorted hperm hstrictL hstrictR
  simp only [TaskCRUD.search_tasks, searchSpec]
  rw [hfe, hLR]

/-- C2 counterexample: the raw search term is spliced into the ILIKE
pattern, so `_` acts as a wildcard: searching the one-row store for `"_"`
returns the row although neither its name nor its description contains the
underscore — the claim's "for every search term" fails. -/
theorem C2_wildcard_counterexample :
    TaskCRUD.search_tasks stC2cex "_" 50 = [⟨1, "a", none, 1, 1⟩] ∧
    nameHasTerm "_" ⟨1, "a", none, 1, 1⟩ = false ∧
    descHasTerm "_" ⟨1, "a", none, 1, 1⟩ = false ∧
    searchSpec stC2cex "_" 50 = [] := by decide

/-- C2 amended witness: on the three-row example the engine result equals
the spec ordering — the name-match first, then the description-only matches
by ascending id. -/
theorem C2_search_semantics_witness :
    TaskCRUD.search_tasks stC2 "abc" 50 = searchSpec stC2 "abc" 50 :=
  C2_search_semantics stC2 "abc" 50 (by decide) (by decide)

end App

